import Mathlib

/-!
Verification development for the peakbagger-bulk-uploader repository
(src/main.go, plus the earlier revision src/unnamed/part_000).

Shallow embedding conventions:

* `float64` elevations are modelled as `Option Int` mirroring the gpxgo
  `NullableFloat64` type: `none` is a null ("absent") elevation.  gpxgo
  stores the float zero value in a null `NullableFloat64` (its `SetNull`
  and the struct zero value both leave the payload at 0), so the Go
  method `Value()` returns 0 on a null value; `elevValue` below mirrors
  that.  Only comparisons of elevations occur in the program, so `Int`
  stands in for `float64` without loss.
* `time.Time` timestamps are modelled as `Int`, with 0 as the zero time
  (`IsZero` in Go tests exactly that).
* External collaborators (gpsbabel, the filesystem, the peakbagger
  catalog client) are modelled by explicit outcome parameters at the
  call sites where main.go invokes them; the surrounding control flow is
  translated from the source.
* A Go runtime panic (nil-pointer dereference) is the `GoVal.crash`
  value; a normal return of `x` is `GoVal.ret x`.
-/

/-- Result of running a piece of Go code: either a normal return value or a
runtime panic (nil dereference). -/
inductive GoVal (α : Type) where
  | ret : α → GoVal α
  | crash : GoVal α
deriving DecidableEq

/-- Decidable equality for Except results, used to evaluate the model on
concrete inputs. -/
instance instDecEqExcept {ε α : Type} [DecidableEq ε] [DecidableEq α] :
    DecidableEq (Except ε α) := fun a b =>
  match a, b with
  | .error e, .error f => decidable_of_iff (e = f) (by simp)
  | .error _, .ok _ => isFalse (by simp)
  | .ok _, .error _ => isFalse (by simp)
  | .ok x, .ok y => decidable_of_iff (x = y) (by simp)

/-- Mirror of gpxgo `NullableFloat64.Value()`: a null elevation holds the
float64 zero value, so `Value()` of a null is 0. -/
def elevValue (e : Option Int) : Int := e.getD 0

/-- Mirror of gpxgo `NullableFloat64.NotNull()`. -/
def elevNotNull (e : Option Int) : Bool := e.isSome

/-- gpx.GPXPoint, restricted to the fields main.go reads: Latitude,
Longitude, Elevation (nullable) and Timestamp. -/
structure GPXPoint where
  latitude : Int
  longitude : Int
  elevation : Option Int
  timestamp : Int
deriving DecidableEq

/-- gpx.GPXTrackSegment: an ordered list of points. -/
structure GPXSegment where
  points : List GPXPoint
deriving DecidableEq

/-- gpx.GPXTrack: a name and an ordered list of segments. -/
structure GPXTrack where
  name : String
  segments : List GPXSegment
deriving DecidableEq

/-- gpx.GPX, restricted to the field main.go reads: Tracks. -/
structure GPXFile where
  tracks : List GPXTrack
deriving DecidableEq

/-- All points of a track in iteration order (segments outer, points
inner), matching the nested loop of `ToTrackBounds` in main.go. -/
def trackPoints (t : GPXTrack) : List GPXPoint :=
  (t.segments.map GPXSegment.points).flatten

/-- Last element of a list, with a default for the empty list. -/
def lastD : List α → α → α
  | [], d => d
  | x :: xs, _ => lastD xs x

/-- TrackBounds of main.go.  Start and End are pointer fields in Go and
stay `Option`; Highest is stored after the non-nil check that
`ToTrackBounds` performs, so it is a plain point in the `ok` result. -/
structure TrackBounds where
  Start : Option GPXPoint
  Highest : GPXPoint
  End : Option GPXPoint
deriving DecidableEq

/-- State of the scanning loop of `ToTrackBounds` (main.go lines 78-98),
where all three fields are still nullable. -/
structure ScanState where
  Start : Option GPXPoint
  Highest : Option GPXPoint
  End : Option GPXPoint
deriving DecidableEq

/-- One iteration of the inner loop of `ToTrackBounds` (main.go lines
81-97): set Start on the first point, always move End, initialize
Highest on the first point, and replace Highest whenever the current
point carries a non-null elevation strictly greater than the stored
value of the current Highest elevation. -/
def scanPoint (tb : ScanState) (p : GPXPoint) : ScanState :=
  let start := match tb.Start with
    | none => some p
    | some q => some q
  let hi0 := match tb.Highest with
    | none => p
    | some q => q
  let hi := if elevNotNull p.elevation && elevValue p.elevation > elevValue hi0.elevation
    then p else hi0
  ⟨start, some hi, some p⟩

/-- The full scan of `ToTrackBounds`: segments outer, points inner. -/
def scanTrack (t : GPXTrack) : ScanState :=
  t.segments.foldl (fun tb seg => seg.points.foldl scanPoint tb) ⟨none, none, none⟩

/-- The Highest pointer computed by the scan of `ToTrackBounds`, before
the validation checks. -/
def scanHighest (t : GPXTrack) : Option GPXPoint :=
  (scanTrack t).Highest

/-- The three validation failures of `ToTrackBounds` (main.go lines
100-110): "missing points", "missing elevation", "missing timestamp". -/
inductive BoundsErr where
  | missingPoints
  | missingElevation
  | missingTimestamp
deriving DecidableEq

/-- ToTrackBounds of main.go (lines 77-113): run the scan, then fail if no
point was seen, if the Highest point has a null elevation, or if the
Highest point has the zero timestamp; otherwise return the bounds. -/
def ToTrackBounds (t : GPXTrack) : Except BoundsErr TrackBounds :=
  let tb := scanTrack t
  match tb.Highest with
  | none => .error .missingPoints
  | some hi =>
    if !elevNotNull hi.elevation then .error .missingElevation
    else if hi.timestamp == 0 then .error .missingTimestamp
    else .ok ⟨tb.Start, hi, tb.End⟩

/-- The Highest-tracking recursion of the scan, isolated: fold the
replace-if-strictly-greater rule over the remaining points. -/
def goHighest (h : GPXPoint) : List GPXPoint → GPXPoint
  | [] => h
  | p :: l =>
      goHighest
        (if elevNotNull p.elevation && elevValue p.elevation > elevValue h.elevation
          then p else h) l

/-! ## Go sort.Slice

main.go line 165 calls `sort.Slice(peaks, less)` with
`less(i, j) = Distance2D(peaks[i], highest) < Distance2D(peaks[j], highest)`.
`sort.Slice` is documented as NOT stable.  The algorithm below transcribes
the implementation used by Go toolchains 1.8 through 1.18 (`quickSort` in
sort/sort.go) -- the toolchain era of this source, which still uses the
`io/ioutil` API deprecated in Go 1.16.  Ranges of at most 12 elements are
handled by a gap-6 shell pass followed by an insertion sort; larger
ranges go through median-of-three quicksort with a heapsort depth
fallback.  Loops are transcribed with explicit fuel; every fuel value
passed is an upper bound on the iteration count of the Go loop, so the
functions agree with the Go code on every execution.  The element order
produced for tied keys is what the claims about tie-breaking are tested
against. -/

/-- Swap two positions of an array (no-op if out of bounds, which the Go
code never does). -/
def swapA (a : Array α) (i j : Nat) : Array α :=
  match a.get? i, a.get? j with
  | some x, some y => (a.setD i y).setD j x
  | _, _ => a

/-- data.Less(i, j) for the key function `k` (the distance to the highest
point): compares the current elements at indices i and j. -/
def lessA (k : α → Int) (a : Array α) (i j : Nat) : Bool :=
  match a.get? i, a.get? j with
  | some x, some y => decide (k x < k y)
  | _, _ => false

/-- Inner loop of Go insertionSort:
for j := i; j > a && data.Less(j, j-1); j-- { data.Swap(j, j-1) }. -/
def insInner (k : α → Int) (lo : Nat) (arr : Array α) : Nat → Array α
  | 0 => arr
  | j + 1 =>
    if lo < j + 1 && lessA k arr (j + 1) j then insInner k lo (swapA arr (j + 1) j) j
    else arr

/-- Go insertionSort(data, lo, hi): for i := lo+1; i < hi; i++ run the
inner loop. -/
def insertionSortA (k : α → Int) (arr : Array α) (lo hi : Nat) : Array α :=
  (List.range' (lo + 1) (hi - (lo + 1))).foldl (fun a i => insInner k lo a i) arr

/-- The gap-6 shell pass Go runs before insertionSort on ranges of at
most 12 elements: for i := lo+6; i < hi; i++ swap i and i-6 if out of
order. -/
def shellPass (k : α → Int) (arr : Array α) (lo hi : Nat) : Array α :=
  (List.range' (lo + 6) (hi - (lo + 6))).foldl
    (fun a i => if lessA k a i (i - 6) then swapA a i (i - 6) else a) arr

/-- Go siftDown(data, root, hi, first), with fuel bounding the descent
(the root at least doubles each iteration, so `hi` is enough fuel). -/
def siftDownA (k : α → Int) (first hi : Nat) : Array α → Nat → Nat → Array α
  | arr, _, 0 => arr
  | arr, root, fuel + 1 =>
    let child := 2 * root + 1
    if child ≥ hi then arr
    else
      let child := if child + 1 < hi && lessA k arr (first + child) (first + child + 1)
        then child + 1 else child
      if !lessA k arr (first + root) (first + child) then arr
      else siftDownA k first hi (swapA arr (first + root) (first + child)) child fuel

/-- Go heapSort(data, a, b). -/
def heapSortA (k : α → Int) (arr : Array α) (a b : Nat) : Array α :=
  let first := a
  let hi := b - a
  let arr := ((List.range ((hi - 1) / 2 + 1)).reverse).foldl
    (fun ar i => siftDownA k first hi ar i hi) arr
  ((List.range' 1 (hi - 1)).reverse).foldl
    (fun ar i => siftDownA k first i (swapA ar first (first + i)) 0 i) arr

/-- Go medianOfThree(data, m1, m0, m2). -/
def medianOfThreeA (k : α → Int) (arr : Array α) (m1 m0 m2 : Nat) : Array α :=
  let arr := if lessA k arr m1 m0 then swapA arr m1 m0 else arr
  if lessA k arr m2 m1 then
    let arr := swapA arr m2 m1
    if lessA k arr m1 m0 then swapA arr m1 m0 else arr
  else arr

/-- for ; a < c && data.Less(a, pivot); a++ (fuelled). -/
def scanLoA (k : α → Int) (arr : Array α) (pivot c : Nat) : Nat → Nat → Nat
  | a, 0 => a
  | a, fuel + 1 =>
    if a < c && lessA k arr a pivot then scanLoA k arr pivot c (a + 1) fuel else a

/-- for ; b < c && !data.Less(pivot, b); b++ (fuelled). -/
def scanBA (k : α → Int) (arr : Array α) (pivot c : Nat) : Nat → Nat → Nat
  | b, 0 => b
  | b, fuel + 1 =>
    if b < c && !lessA k arr pivot b then scanBA k arr pivot c (b + 1) fuel else b

/-- for ; b < c && data.Less(pivot, c-1); c-- (fuelled). -/
def scanCA (k : α → Int) (arr : Array α) (pivot b : Nat) : Nat → Nat → Nat
  | c, 0 => c
  | c, fuel + 1 =>
    if b < c && lessA k arr pivot (c - 1) then scanCA k arr pivot b (c - 1) fuel else c

/-- The main partition loop of Go doPivot (fuelled). -/
def partLoopA (k : α → Int) (pivot : Nat) : Array α → Nat → Nat → Nat → Array α × Nat × Nat
  | arr, b, c, 0 => (arr, b, c)
  | arr, b, c, fuel + 1 =>
    let b := scanBA k arr pivot c b (c - b)
    let c := scanCA k arr pivot b c (c - b)
    if b ≥ c then (arr, b, c)
    else partLoopA k pivot (swapA arr b (c - 1)) (b + 1) (c - 1) fuel

/-- for ; a < b && !data.Less(b-1, pivot); b-- (fuelled). -/
def protScanB (k : α → Int) (arr : Array α) (pivot a : Nat) : Nat → Nat → Nat
  | b, 0 => b
  | b, fuel + 1 =>
    if a < b && !lessA k arr (b - 1) pivot then protScanB k arr pivot a (b - 1) fuel else b

/-- for ; a < b && data.Less(a, pivot); a++ (fuelled). -/
def protScanA (k : α → Int) (arr : Array α) (pivot b : Nat) : Nat → Nat → Nat
  | a, 0 => a
  | a, fuel + 1 =>
    if a < b && lessA k arr a pivot then protScanA k arr pivot b (a + 1) fuel else a

/-- The equal-element protection loop of Go doPivot (fuelled):
for { for ; a < b && !less(b-1, pivot); b--; for ; a < b && less(a, pivot); a++;
if a >= b break; swap(a, b-1); a++; b-- }. -/
def protLoopA (k : α → Int) (pivot : Nat) : Array α → Nat → Nat → Nat → Array α × Nat × Nat
  | arr, a, b, 0 => (arr, a, b)
  | arr, a, b, fuel + 1 =>
    let b := protScanB k arr pivot a b (b - a)
    let a := protScanA k arr pivot b a (b - a)
    if a ≥ b then (arr, a, b)
    else protLoopA k pivot (swapA arr a (b - 1)) (a + 1) (b - 1) fuel

/-- Go doPivot(data, lo, hi): returns the mutated array and (midlo, midhi). -/
def doPivotA (k : α → Int) (arr0 : Array α) (lo hi : Nat) : Array α × Nat × Nat :=
  let m := (lo + hi) / 2
  let arr := if hi - lo > 40 then
      let s := (hi - lo) / 8
      let arr := medianOfThreeA k arr0 lo (lo + s) (lo + 2 * s)
      let arr := medianOfThreeA k arr m (m - s) (m + s)
      medianOfThreeA k arr (hi - 1) (hi - 1 - s) (hi - 1 - 2 * s)
    else arr0
  let arr := medianOfThreeA k arr lo m (hi - 1)
  let pivot := lo
  let a := scanLoA k arr pivot (hi - 1) (lo + 1) (hi - 1 - (lo + 1))
  let (arr, b, c) := partLoopA k pivot arr a (hi - 1) (hi - 1 - a)
  let protect0 : Bool := decide (hi - c < 5)
  let st :=
    if !protect0 && decide (hi - c < (hi - lo) / 4) then
      let dups := 0
      let (arr, c, dups) := if !lessA k arr pivot (hi - 1)
        then (swapA arr c (hi - 1), c + 1, dups + 1) else (arr, c, dups)
      let (b, dups) := if !lessA k arr (b - 1) pivot then (b - 1, dups + 1) else (b, dups)
      let (arr, b, dups) := if !lessA k arr m pivot
        then (swapA arr m (b - 1), b - 1, dups + 1) else (arr, b, dups)
      (arr, b, c, decide (dups > 1))
    else (arr, b, c, protect0)
  let (arr, b, c, protect) := st
  let (arr, _, b) := if protect then protLoopA k pivot arr (lo + 1) b (b - (lo + 1) + 1)
    else (arr, lo + 1, b)
  (swapA arr pivot (b - 1), b - 1, c)

/-- Go maxDepth(n) = 2 * (number of bits of n): the quicksort depth
threshold before switching to heapsort. -/
def maxDepthGo (n : Nat) : Nat :=
  if n = 0 then 0 else 2 * (Nat.log2 n + 1)

/-- Go quickSort(data, a, b, maxDepth), with fuel bounding the recursion
depth (each recursive call and each loop iteration decrements maxDepth,
so maxDepth + 1 is enough fuel). -/
def quickSortA (k : α → Int) : Nat → Array α → Nat → Nat → Nat → Array α
  | 0, arr, _, _, _ => arr
  | fuel + 1, arr, a, b, maxd =>
    if b - a > 12 then
      if maxd = 0 then heapSortA k arr a b
      else
        let (arr, mlo, mhi) := doPivotA k arr a b
        if mlo - a < b - mhi then
          let arr := quickSortA k fuel arr a mlo (maxd - 1)
          quickSortA k fuel arr mhi b (maxd - 1)
        else
          let arr := quickSortA k fuel arr mhi b (maxd - 1)
          quickSortA k fuel arr a mlo (maxd - 1)
    else
      if b - a > 1 then insertionSortA k (shellPass k arr a b) a b
      else arr

/-- sort.Slice(l, less) with less comparing the key `k` (Go 1.8-1.18
algorithm, see above). -/
def sortSliceGo (k : α → Int) (l : List α) : List α :=
  let arr := l.toArray
  (quickSortA k (maxDepthGo arr.size + 2) arr 0 arr.size (maxDepthGo arr.size)).toList

/-! ## Peak matching (UploadTrack lines 159-178) -/

/-- A peakbagger.Peak, restricted to the fields main.go reads. -/
structure Peak where
  peakID : Int
  name : String
  latitude : Int
  longitude : Int
deriving DecidableEq

/-- The peak-selection step of UploadTrack (main.go lines 159-178), given
the peak list returned by the external FindPeaks call and the external
distance function `dist p = gpx.Distance2D(p, highest, haversine)`:
sort the list by ascending distance with Go sort.Slice, fail when it is
empty, otherwise pick the first element, with a warning flag when more
than one peak matched. -/
def selectPeak (dist : Peak → Int) (peaks : List Peak) : Except String (Peak × Bool) :=
  let sorted := sortSliceGo dist peaks
  match sorted with
  | [] => .error "no peaks found"
  | p :: rest => .ok (p, decide (0 < rest.length))

/-! ## UploadTrack (main.go lines 141-225) -/

/-- peakbagger.Ascent, restricted to the fields main.go sets. -/
structure Ascent where
  PeakID : Int
  Date : Int
  GpxTracks : List GPXTrack
  TripReport : String
  TimeUp : Int
  TimeDown : Int
  StartElevation : Int
  EndElevation : Int
deriving DecidableEq

/-- The TripReport string main.go builds (line 199), with the formatted
current time passed in. -/
def tripReportFor (nowStr : String) : String :=
  "[i]Uploaded by [a href=\x22https://github.com/jheidel/peakbagger-bulk-uploader\x22]peakbagger-bulk-uploader[/a] on "
    ++ nowStr ++ "[/i]"

/-- gpxgo Track.TimeBounds start time: the timestamp of the first point
of the track (0 when there is none). -/
def timeBoundsStart (t : GPXTrack) : Int :=
  match trackPoints t with
  | [] => 0
  | p :: _ => p.timestamp

/-- gpxgo Track.TimeBounds end time: the timestamp of the last point of
the track (0 when there is none). -/
def timeBoundsEnd (t : GPXTrack) : Int :=
  match trackPoints t with
  | [] => 0
  | p :: l => (lastD l p).timestamp

/-- Outcomes of the external catalog-client calls made by UploadTrack,
and of the external Distance2D computation: FindPeaks result,
distance of a peak to a given (highest) point, ListAscents result
(pairs of PeakID and ascent date), AddAscent success, and the
formatted current time for the trip report. -/
structure CatalogEnv where
  findPeaks : Except String (List Peak)
  dist : GPXPoint → Peak → Int
  listAscents : Except String (List (Int × Int))
  addAscentOk : Bool
  nowStr : String

/-- The error returns of UploadTrack, in source order. -/
inductive UTErr where
  | bounds : BoundsErr → UTErr
  | findPeaks : String → UTErr
  | noPeaks
  | listAscents : String → UTErr
  | duplicate
  | addAscent
deriving DecidableEq

/-- A successful UploadTrack: the constructed ascent, whether the
multiple-peaks warning was logged, and whether AddAscent was actually
called (false on a dry run). -/
structure UTOk where
  ascent : Ascent
  multiWarn : Bool
  uploaded : Bool
deriving DecidableEq

/-- UploadTrack of main.go (lines 141-225): analyze the track, select the
nearest catalog peak, check for a duplicate ascent, build the ascent
record (start/end elevations copied from the Start/End points with no
presence check) and submit it unless dryRun.  Dereferencing tb.Start or
tb.End would crash if they were nil; the scan guarantees they are not. -/
def UploadTrack (env : CatalogEnv) (dryRun : Bool) (t : GPXTrack) : GoVal (Except UTErr UTOk) :=
  match ToTrackBounds t with
  | .error e => .ret (.error (.bounds e))
  | .ok tb =>
    match env.findPeaks with
    | .error e => .ret (.error (.findPeaks e))
    | .ok peaks =>
      match selectPeak (env.dist tb.Highest) peaks with
      | .error _ => .ret (.error .noPeaks)
      | .ok (peak, warn) =>
        match env.listAscents with
        | .error e => .ret (.error (.listAscents e))
        | .ok ascents =>
          if (peak.peakID, tb.Highest.timestamp) ∈ ascents then .ret (.error .duplicate)
          else
            match tb.Start, tb.End with
            | some s, some e =>
              let ascent : Ascent :=
                ⟨peak.peakID, tb.Highest.timestamp, [t], tripReportFor env.nowStr,
                  tb.Highest.timestamp - timeBoundsStart t,
                  timeBoundsEnd t - tb.Highest.timestamp,
                  elevValue s.elevation, elevValue e.elevation⟩
              if dryRun then .ret (.ok ⟨ascent, warn, false⟩)
              else if env.addAscentOk then .ret (.ok ⟨ascent, warn, true⟩)
              else .ret (.error .addAscent)
            | _, _ => .crash

/-! ## File conversion and per-file pipeline (ToGPX, UploadFile) -/

/-- strings.ToLower, for the ASCII extensions this program handles. -/
def strToLower (s : String) : String := String.mk (s.toList.map Char.toLower)

/-- Helper for pathExt: walk the reversed name, collecting until the
final dot; stop empty at a slash or at the start. -/
def pathExtAux : List Char → List Char → String
  | [], _ => ""
  | c :: rest, acc =>
    if c = '/' then ""
    else if c = '.' then String.mk ('.' :: acc)
    else pathExtAux rest (c :: acc)

/-- Go path.Ext / filepath.Ext (slash paths): the suffix beginning at the
final dot of the final path element, empty if there is no dot. -/
def pathExt (s : String) : String := pathExtAux s.toList.reverse []

/-- Association-list lookup keyed by String (the map semantics used for
both the extension table and FilenameHistory). -/
def lookupKey {β : Type} : List (String × β) → String → Option β
  | [], _ => none
  | (key, v) :: rest, n => if key = n then some v else lookupKey rest n

/-- The extension-to-gpsbabel-format map of main.go (lines 34-39). -/
def extToGPSBabelFormat : List (String × String) :=
  [(".gdb", "gdb"), (".gpx", "gpx"), (".kml", "kml"), (".kmz", "kmz")]

/-- Outcome of the external ioutil.TempFile call: the handle (carrying the
created file name) or nil, and the error value.  Go returns a nil
handle together with a non-nil error when creation fails; a file on
disk is created exactly when a handle is returned. -/
structure TempFileOutcome where
  handle : Option String
  err : Option String
deriving DecidableEq

/-- The error message of main.go line 56. -/
def tempFailMsg : String := "failed to create temp gpx output file"

/-- ToGPX of main.go (lines 44-68), returning the Go result pair
(outputFile, error) together with the list of temp files the call
created on disk.  The code calls of.Name() and of.Close() before
checking the creation error, so a nil handle crashes; the creation
error message is returned only when a handle and an error are both
present.  When gpsbabel fails, the created temp file name is returned
together with the error. -/
def ToGPXe (inputFile : String) (tmp : TempFileOutcome) (gpsbabelOk : Bool) :
    GoVal ((String × Option String) × List String) :=
  match lookupKey extToGPSBabelFormat (strToLower (pathExt inputFile)) with
  | none => .ret (("", some "file extension is not not a known GPS format"), [])
  | some _ =>
    match tmp.handle with
    | none => .crash
    | some nm =>
      match tmp.err with
      | some _ => .ret (("", some tempFailMsg), [nm])
      | none =>
        if gpsbabelOk then .ret ((nm, none), [nm])
        else .ret ((nm, some "gpsbabel conversion failed"), [nm])

/-- fmt.Errorf("%v processing track %q", err, t.Name) of main.go line 249. -/
def fmtTrackErr (e nm : String) : String :=
  e ++ " processing track \x22" ++ nm ++ "\x22"

/-- The per-track loop of UploadFile (main.go lines 246-256): run every
track through UploadTrack (its result is the `f` parameter), wrap each
failure with the track name, and chain failures into one accumulated
message with ", " (fmt.Errorf("%v, %v", errAcc, err)). -/
def trackLoop (f : GPXTrack → Option String) : List GPXTrack → Option String → Option String
  | [], acc => acc
  | t :: rest, acc =>
    match f t with
    | none => trackLoop f rest acc
    | some e =>
      let e2 := fmtTrackErr e t.name
      match acc with
      | none => trackLoop f rest (some e2)
      | some a => trackLoop f rest (some (a ++ ", " ++ e2))

/-- The wrapped failure messages of the failing tracks, in track order
(specification-side description of what the loop accumulates). -/
def trackFailMsgs (f : GPXTrack → Option String) (ts : List GPXTrack) : List String :=
  ts.filterMap (fun t => (f t).map (fun e => fmtTrackErr e t.name))

/-- Joining a list of messages with ", " into one combined message, none
when there is no message (specification-side). -/
def joinComma : List String → Option String
  | [] => none
  | m :: ms => some (ms.foldl (fun a e => a ++ ", " ++ e) m)

/-- Outcomes of the external calls UploadFile makes for one input file:
the TempFile outcome, gpsbabel success, readability of the converted
file, the parse result, and the per-track UploadTrack results
(an error message, or none for success). -/
structure FileEnv where
  tmp : TempFileOutcome
  gpsbabelOk : Bool
  readOk : Bool
  parsed : Option GPXFile
  trackErr : GPXTrack → Option String

/-- Result of one UploadFile run: the returned error, the temp files
created on disk during the run, and the temp files removed by the time
it returns. -/
structure UFRes where
  err : Option String
  created : List String
  removed : List String
deriving DecidableEq

/-- UploadFile of main.go (lines 227-258).  The deferred os.Remove(gf) is
registered only AFTER the ToGPX error check, so a ToGPX failure
returns without removing anything. -/
def UploadFile (env : FileEnv) (filename : String) : GoVal UFRes :=
  match ToGPXe filename env.tmp env.gpsbabelOk with
  | .crash => .crash
  | .ret ((_, some e), created) => .ret ⟨some ("ToGPX failed " ++ e), created, []⟩
  | .ret ((gf, none), created) =>
    if !env.readOk then .ret ⟨some "read gpx file", created, [gf]⟩
    else
      match env.parsed with
      | none => .ret ⟨some "parse gpx bytes", created, [gf]⟩
      | some g => .ret ⟨trackLoop env.trackErr g.tracks none, created, [gf]⟩

/-! ## History store and batch runner (main.go lines 260-323) -/

/-- The History entry of main.go (lines 115-118). -/
structure History where
  Error : String
  Added : Int
deriving DecidableEq

/-- One entry of the ioutil.ReadDir listing. -/
structure FileInfo where
  name : String
  isDir : Bool
deriving DecidableEq

/-- State of the persisted history document as LoadHistory finds it. -/
inductive HistDoc where
  | absent
  | unreadable
  | corrupt
  | present : List (String × History) → HistDoc
deriving DecidableEq

/-- The failures that abort Uploader.Run. -/
inductive AbortCause where
  | readDirErr
  | loadHistoryErr
  | saveHistoryErr
deriving DecidableEq

/-- Go map update FilenameHistory[name] = entry (key-unique association
list; order is irrelevant, only lookups are observed). -/
def histInsert (hist : List (String × History)) (key : String) (v : History) :
    List (String × History) :=
  (key, v) :: hist.filter (fun p => !(p.1 == key))

/-- The skip decision of main.go lines 303-304:
hist, ok := u.FilenameHistory[name]; ok && (hist.Error == "" || !*retry). -/
def shouldSkip (hist : List (String × History)) (name : String) (retry : Bool) : Bool :=
  match lookupKey hist name with
  | some h => h.Error == "" || !retry
  | none => false

/-- A name whose recorded history entry is a failure (non-empty error). -/
def recordedFailure (hist : List (String × History)) (name : String) : Bool :=
  match lookupKey hist name with
  | some h => !(h.Error == "")
  | none => false

/-- A directory entry the batch loop does not skip up front: a regular
file whose extension is a known format (main.go lines 296-302). -/
def eligible (fi : FileInfo) : Bool :=
  !fi.isDir && (lookupKey extToGPSBabelFormat (pathExt fi.name)).isSome

/-- LoadHistory of main.go (lines 262-271): an absent document is not an
error and leaves the empty map from NewUploader; an unreadable or
corrupt (unmarshal failure) document is an error. -/
def LoadHistory : HistDoc → Except AbortCause (List (String × History))
  | .absent => .ok []
  | .unreadable => .error .loadHistoryErr
  | .corrupt => .error .loadHistoryErr
  | .present h => .ok h

/-- Outcomes of the external calls of Uploader.Run: the directory
listing (none = unreadable), the history-document state, the result of
UploadFile per file name (an error message or none), whether each
SaveHistory write succeeds (as a function of the document being
written), and the current time recorded in new entries. -/
structure BatchEnv where
  readDir : Option (List FileInfo)
  histDoc : HistDoc
  upload : String → Option String
  saveOk : List (String × History) → Bool
  now : Int

/-- Result of a batch run: the files actually processed (passed to
UploadFile) in order, the final history map, and the abort cause if the
run returned early. -/
structure RunOutcome where
  processed : List String
  history : List (String × History)
  abort : Option AbortCause
deriving DecidableEq

/-- The per-file loop of Uploader.Run (main.go lines 295-321): skip
directories, skip unknown extensions, skip per shouldSkip; otherwise
run UploadFile, record its outcome (empty string on success), and
persist the history, aborting the run if the write fails. -/
def runFiles (env : BatchEnv) (retry : Bool) :
    List FileInfo → List (String × History) → List String → RunOutcome
  | [], hist, proc => ⟨proc.reverse, hist, none⟩
  | fi :: rest, hist, proc =>
    if fi.isDir then runFiles env retry rest hist proc
    else if !(lookupKey extToGPSBabelFormat (pathExt fi.name)).isSome then
      runFiles env retry rest hist proc
    else if shouldSkip hist fi.name retry then runFiles env retry rest hist proc
    else if env.saveOk (histInsert hist fi.name ⟨(env.upload fi.name).getD "", env.now⟩) then
      runFiles env retry rest (histInsert hist fi.name ⟨(env.upload fi.name).getD "", env.now⟩)
        (fi.name :: proc)
    else
      ⟨(fi.name :: proc).reverse,
        histInsert hist fi.name ⟨(env.upload fi.name).getD "", env.now⟩, some .saveHistoryErr⟩

/-- The directory branch of Uploader.Run (main.go lines 286-322): list the
directory, load the history, then run the per-file loop.  (The
single-file branch of line 282 bypasses all of this and is not part of
the batch behaviour.) -/
def runBatch (env : BatchEnv) (retry : Bool) : RunOutcome :=
  match env.readDir with
  | none => ⟨[], [], some .readDirErr⟩
  | some files =>
    match LoadHistory env.histDoc with
    | .error c => ⟨[], [], some c⟩
    | .ok hist0 => runFiles env retry files hist0 []

/-! ## Concrete inputs used by the claim witnesses and counterexamples -/

/-- A first point with a null elevation (its stored value is the float
zero).  Timestamps are nonzero so only elevation is at issue. -/
def exC1p0 : GPXPoint := ⟨470, -1210, none, 1⟩

/-- A later point carrying a present elevation of -5 (for example below
sea level), the only present elevation of the track and hence its
greatest one. -/
def exC1p1 : GPXPoint := ⟨471, -1211, some (-5), 2⟩

/-- The two-point track for the C1 counterexample. -/
def exC1track : GPXTrack := ⟨"t1", [⟨[exC1p0, exC1p1]⟩]⟩

def exC1q1 : GPXPoint := ⟨1, 1, some 100, 1⟩

def exC1q2 : GPXPoint := ⟨2, 2, some 200, 2⟩

def exC1q3 : GPXPoint := ⟨3, 3, some 200, 3⟩

def exC1q4 : GPXPoint := ⟨4, 4, some 150, 4⟩

/-- The elevation profile [100, 200, 200, 150] from the specification,
split over two segments. -/
def exC1wtrack : GPXTrack := ⟨"tie", [⟨[exC1q1, exC1q2]⟩, ⟨[exC1q3, exC1q4]⟩]⟩

/-- Candidate A: at the summit coordinates, earlier in catalog order. -/
def exC2pA : Peak := ⟨101, "A", 1, 0⟩

/-- Candidate B: the same coordinates as A (hence the same distance to
the highest point), last in catalog order. -/
def exC2pB : Peak := ⟨106, "B", 1, 0⟩

/-- A seven-candidate catalog answer.  Distances to the highest point
(see exC2dist) are [5, 1, 7, 8, 9, 10, 1]: A and B tie at the minimum
and A comes first. -/
def exC2peaks : List Peak :=
  [⟨100, "P0", 5, 0⟩, exC2pA, ⟨102, "P2", 7, 0⟩, ⟨103, "P3", 8, 0⟩,
    ⟨104, "P4", 9, 0⟩, ⟨105, "P5", 10, 0⟩, exC2pB]

/-- Stand-in for gpx.Distance2D(peak, highest): a deterministic function
of the peak coordinates (the highest point is fixed for the call), so
peaks with identical coordinates are at identical distance.  Here the
peaks sit at longitude 0 and the distance grows with latitude. -/
def exC2dist : Peak → Int := fun p => p.latitude

/-- Two candidates at distinct distances for the C2 witness. -/
def exC2wPeaks : List Peak := [⟨200, "Far", 9, 0⟩, ⟨201, "Near", 2, 0⟩]

/-- A track whose points exist but none of which carries an elevation. -/
def exC5track : GPXTrack := ⟨"flat", [⟨[⟨0, 0, none, 5⟩, ⟨0, 0, none, 6⟩]⟩]⟩

/-- UploadFile externals for the C6 failing input: the temp file
/tmp/pb1.gpx is created, then gpsbabel exits non-zero. -/
def exC6env : FileEnv := ⟨⟨some "/tmp/pb1.gpx", none⟩, false, true, none, fun _ => none⟩

/-- Batch externals for the C7 counterexample: readable directory with
two eligible files, absent history document, uploads succeed, but every
SaveHistory write fails. -/
def exC7env : BatchEnv :=
  ⟨some [⟨"a.gdb", false⟩, ⟨"b.gdb", false⟩], .absent, fun _ => none, fun _ => false, 5⟩

/-- Batch externals for the C7 witness: absent history document,
readable directory, saves succeed. -/
def exC7Wenv : BatchEnv := ⟨some [⟨"c.kml", false⟩], .absent, fun _ => none, fun _ => true, 3⟩

/-- A parsed file with three tracks for the C8 witness. -/
def exC8g : GPXFile := ⟨[⟨"one", []⟩, ⟨"two", []⟩, ⟨"three", []⟩]⟩

/-- Per-track outcomes for the C8 witness: the second and third tracks
fail. -/
def exC8f : GPXTrack → Option String := fun t =>
  if t.name = "two" then some "no peaks found"
  else if t.name = "three" then some "highest point missing elevation" else none

/-- UploadFile externals for the C8 witness: conversion, read and parse
succeed. -/
def exC8env : FileEnv := ⟨⟨some "/tmp/x.gpx", none⟩, true, true, some exC8g, exC8f⟩

/-- Batch externals for the C8 witness. -/
def exC8benv : BatchEnv :=
  ⟨some [⟨"h.kmz", false⟩], .absent, fun n => if n = "h.kmz" then some "boom" else none,
    fun _ => true, 7⟩

/-- Directory listing for the C4 witness: two eligible files, one
unsupported extension, one subdirectory. -/
def exC4files : List FileInfo :=
  [⟨"a.gdb", false⟩, ⟨"b.gpx", false⟩, ⟨"notes.txt", false⟩, ⟨"sub", true⟩]

/-- UploadFile outcomes for the C4 witness: b.gpx fails, a.gdb succeeds. -/
def exC4upload : String → Option String := fun n => if n = "b.gpx" then some "boom" else none

def exC10p0 : GPXPoint := ⟨10, 20, none, 1⟩

def exC10p1 : GPXPoint := ⟨11, 21, some 300, 5⟩

def exC10p2 : GPXPoint := ⟨12, 22, none, 9⟩

/-- A track whose first and last points carry no elevation while the
highest (middle) point carries one: valid for ToTrackBounds. -/
def exC10track : GPXTrack := ⟨"summit", [⟨[exC10p0, exC10p1, exC10p2]⟩]⟩

def exC10peak : Peak := ⟨77, "Pk", 11, 21⟩

/-- Catalog externals for the C10 witness: one matching peak, no prior
ascents, AddAscent succeeds. -/
def exC10env : CatalogEnv :=
  ⟨.ok [exC10peak], fun _ p => p.latitude, .ok [], true, "2020-01-01T00:00:00Z"⟩

/-- The UploadTrack result for the C10 witness, written out: start and
end elevations are the absent-elevation default 0. -/
def exC10res : UTOk :=
  ⟨⟨77, 5, [exC10track], tripReportFor "2020-01-01T00:00:00Z", 4, 4, 0, 0⟩, false, true⟩

/-! # Theorems -/

theorem goHighest_cons (h p : GPXPoint) (l : List GPXPoint) :
    goHighest h (p :: l) =
      goHighest
        (if elevNotNull p.elevation && elevValue p.elevation > elevValue h.elevation
          then p else h) l := rfl

theorem foldl_scanPoint (l : List GPXPoint) :
    ∀ s h e : GPXPoint,
      l.foldl scanPoint ⟨some s, some h, some e⟩ =
        ⟨some s, some (goHighest h l), some (lastD l e)⟩ := by
  induction l with
  | nil => intro s h e; rfl
  | cons p l ih =>
    intro s h e
    rw [List.foldl_cons]
    have h1 : scanPoint ⟨some s, some h, some e⟩ p =
        ⟨some s,
          some (if elevNotNull p.elevation && elevValue p.elevation > elevValue h.elevation
            then p else h),
          some p⟩ := rfl
    rw [h1, ih]
    rfl

theorem scanSegs_flatten (segs : List GPXSegment) (s0 : ScanState) :
    segs.foldl (fun tb seg => seg.points.foldl scanPoint tb) s0 =
      ((segs.map GPXSegment.points).flatten).foldl scanPoint s0 := by
  induction segs generalizing s0 with
  | nil => rfl
  | cons sg rest ih =>
    rw [List.foldl_cons, ih, List.map_cons, List.flatten_cons, List.foldl_append]

theorem scanTrack_eq (t : GPXTrack) :
    scanTrack t =
      match trackPoints t with
      | [] => ⟨none, none, none⟩
      | p :: l => ⟨some p, some (goHighest p l), some (lastD l p)⟩ := by
  unfold scanTrack
  rw [scanSegs_flatten]
  show (trackPoints t).foldl scanPoint ⟨none, none, none⟩ = _
  cases hps : trackPoints t with
  | nil => rfl
  | cons p l =>
    rw [List.foldl_cons]
    have h1 : scanPoint ⟨none, none, none⟩ p = ⟨some p, some p, some p⟩ := by
      show (⟨some p,
        some (if elevNotNull p.elevation && elevValue p.elevation > elevValue p.elevation
          then p else p), some p⟩ : ScanState) = _
      simp
    rw [h1, foldl_scanPoint]

theorem goHighest_mem (l : List GPXPoint) : ∀ h : GPXPoint, goHighest h l ∈ h :: l := by
  induction l with
  | nil => intro h; simp [goHighest]
  | cons p l ih =>
    intro h
    rw [goHighest_cons]
    by_cases hc : (elevNotNull p.elevation
        && decide (elevValue p.elevation > elevValue h.elevation)) = true
    · rw [if_pos hc]
      have := ih p
      simp only [List.mem_cons] at this ⊢
      tauto
    · rw [if_neg hc]
      have := ih h
      simp only [List.mem_cons] at this ⊢
      tauto

theorem goHighest_spec (l : List GPXPoint) :
    ∀ h : GPXPoint, elevNotNull h.elevation = true →
      elevNotNull (goHighest h l).elevation = true
      ∧ elevValue h.elevation ≤ elevValue (goHighest h l).elevation
      ∧ (∀ p ∈ l, elevNotNull p.elevation = true →
          elevValue p.elevation ≤ elevValue (goHighest h l).elevation)
      ∧ (goHighest h l = h ∨
          ∃ pre post, l = pre ++ goHighest h l :: post
            ∧ elevValue h.elevation < elevValue (goHighest h l).elevation
            ∧ ∀ p ∈ pre, elevNotNull p.elevation = true →
                elevValue p.elevation < elevValue (goHighest h l).elevation) := by
  induction l with
  | nil =>
    intro h hh
    exact ⟨hh, le_refl _, by simp, Or.inl rfl⟩
  | cons p l ih =>
    intro h hh
    rw [goHighest_cons]
    by_cases hc : (elevNotNull p.elevation
        && decide (elevValue p.elevation > elevValue h.elevation)) = true
    · rw [if_pos hc]
      obtain ⟨hp, hgt⟩ := Bool.and_eq_true_iff.mp hc
      have hgt2 : elevValue h.elevation < elevValue p.elevation := of_decide_eq_true hgt
      obtain ⟨n, le, all, dec⟩ := ih p hp
      refine ⟨n, le_of_lt (lt_of_lt_of_le hgt2 le), ?_, ?_⟩
      · intro q hq hqn
        rcases List.mem_cons.mp hq with rfl | hq2
        · exact le
        · exact all q hq2 hqn
      · rcases dec with heq | ⟨pre, post, hl, hlt, hpre⟩
        · refine Or.inr ⟨[], l, ?_, ?_, by simp⟩
          · rw [heq]; rfl
          · rw [heq]; exact hgt2
        · refine Or.inr ⟨p :: pre, post, ?_, lt_trans hgt2 hlt, ?_⟩
          · rw [List.cons_append, ← hl]
          · intro q hq hqn
            rcases List.mem_cons.mp hq with rfl | hq2
            · exact hlt
            · exact hpre q hq2 hqn
    · rw [if_neg hc]
      have hple : elevNotNull p.elevation = true →
          elevValue p.elevation ≤ elevValue h.elevation := by
        intro hp
        by_contra hgt
        push_neg at hgt
        exact hc (Bool.and_eq_true_iff.mpr ⟨hp, decide_eq_true hgt⟩)
      obtain ⟨n, le, all, dec⟩ := ih h hh
      refine ⟨n, le, ?_, ?_⟩
      · intro q hq hqn
        rcases List.mem_cons.mp hq with rfl | hq2
        · exact le_trans (hple hqn) le
        · exact all q hq2 hqn
      · rcases dec with heq | ⟨pre, post, hl, hlt, hpre⟩
        · exact Or.inl heq
        · refine Or.inr ⟨p :: pre, post, ?_, hlt, ?_⟩
          · rw [List.cons_append, ← hl]
          · intro q hq hqn
            rcases List.mem_cons.mp hq with rfl | hq2
            · exact lt_of_le_of_lt (hple hqn) hlt
            · exact hpre q hq2 hqn

/-- C1 (amended): for every track whose FIRST point carries a present
elevation value, the Highest point computed by the ToTrackBounds scan
carries a present elevation, its elevation is greatest among the points
carrying a present elevation value, and every earlier-occurring point
with a present elevation is strictly lower -- so when two points tie on
elevation the earlier-occurring point is kept.  (The unamended claim,
for every track with at least one point, fails: when the first point
carries no elevation the scan seeds Highest with it and its stored
value 0, see C1_counterexample.) -/
theorem C1_highest_first_max (t : GPXTrack) (p0 : GPXPoint) (l : List GPXPoint)
    (hps : trackPoints t = p0 :: l) (h0 : elevNotNull p0.elevation = true) :
    ∃ hi pre post,
      scanHighest t = some hi
      ∧ trackPoints t = pre ++ hi :: post
      ∧ elevNotNull hi.elevation = true
      ∧ (∀ p ∈ trackPoints t, elevNotNull p.elevation = true →
          elevValue p.elevation ≤ elevValue hi.elevation)
      ∧ (∀ p ∈ pre, elevNotNull p.elevation = true →
          elevValue p.elevation < elevValue hi.elevation) := by
  have hS := scanTrack_eq t
  rw [hps] at hS
  have hSH : scanHighest t = some (goHighest p0 l) := by
    rw [scanHighest, hS]
  obtain ⟨n, le, all, dec⟩ := goHighest_spec l p0 h0
  rcases dec with heq | ⟨pre, post, hl, hlt, hpre⟩
  · refine ⟨goHighest p0 l, [], l, hSH, ?_, n, ?_, by simp⟩
    · rw [hps, heq]; rfl
    · intro q hq hqn
      rw [hps] at hq
      rcases List.mem_cons.mp hq with rfl | hq2
      · rw [heq]
      · exact all q hq2 hqn
  · refine ⟨goHighest p0 l, p0 :: pre, post, hSH, ?_, n, ?_, ?_⟩
    · rw [hps, List.cons_append, ← hl]
    · intro q hq hqn
      rw [hps] at hq
      rcases List.mem_cons.mp hq with rfl | hq2
      · exact le
      · exact all q hq2 hqn
    · intro q hq hqn
      rcases List.mem_cons.mp hq with rfl | hq2
      · exact hlt
      · exact hpre q hq2 hqn

/-- C1 witness: the elevation profile [100, 200, 200, 150] of the
specification example.  The scan keeps the point at index 1 (the
earlier of the two 200s), and the amended theorem applies. -/
theorem C1_witness :
    scanHighest exC1wtrack = some exC1q2
    ∧ ∃ hi pre post,
        scanHighest exC1wtrack = some hi
        ∧ trackPoints exC1wtrack = pre ++ hi :: post
        ∧ elevNotNull hi.elevation = true
        ∧ (∀ p ∈ trackPoints exC1wtrack, elevNotNull p.elevation = true →
            elevValue p.elevation ≤ elevValue hi.elevation)
        ∧ (∀ p ∈ pre, elevNotNull p.elevation = true →
            elevValue p.elevation < elevValue hi.elevation) :=
  ⟨by decide,
    C1_highest_first_max exC1wtrack exC1q1 [exC1q2, exC1q3, exC1q4] (by decide) (by decide)⟩

/-- C1 counterexample: a two-point track whose first point carries no
elevation and whose second point carries the only (and hence greatest)
present elevation, -5.  The claim says Highest is that second point;
the code keeps the elevation-less first point as Highest (its stored
value 0 is never beaten by -5) and ToTrackBounds then rejects the track
with the missing-elevation error instead of computing that Highest. -/
theorem C1_counterexample :
    scanHighest exC1track = some exC1p0
    ∧ exC1p0.elevation = none
    ∧ exC1p1 ∈ trackPoints exC1track
    ∧ exC1p1.elevation = some (-5)
    ∧ exC1p0 ≠ exC1p1
    ∧ ToTrackBounds exC1track = .error .missingElevation := by decide

/-- C5: ToTrackBounds fails with the missing-points error iff the track
contains no point; otherwise it fails with the missing-elevation error
iff the Highest point of the scan carries no present elevation -- in
particular (last conjunct) whenever points exist but none of them
carries an elevation; otherwise it fails with the missing-timestamp
error iff the Highest point has the zero timestamp; otherwise it
succeeds.  The model is a pure function of the track, mirroring that
the analysis has no side effects. -/
theorem C5_validation (t : GPXTrack) :
    (ToTrackBounds t = .error .missingPoints ↔ trackPoints t = [])
    ∧ (ToTrackBounds t = .error .missingElevation ↔
        ∃ hi, scanHighest t = some hi ∧ hi.elevation = none)
    ∧ (ToTrackBounds t = .error .missingTimestamp ↔
        ∃ hi, scanHighest t = some hi ∧ hi.elevation ≠ none ∧ hi.timestamp = 0)
    ∧ ((∃ b, ToTrackBounds t = .ok b) ↔
        ∃ hi, scanHighest t = some hi ∧ hi.elevation ≠ none ∧ hi.timestamp ≠ 0)
    ∧ ((trackPoints t ≠ [] ∧ ∀ p ∈ trackPoints t, p.elevation = none) →
        ToTrackBounds t = .error .missingElevation) := by
  have hS := scanTrack_eq t
  cases hps : trackPoints t with
  | nil =>
    rw [hps] at hS
    have hTB : ToTrackBounds t = .error .missingPoints := by
      rw [ToTrackBounds, hS]
    have hSH : scanHighest t = none := by rw [scanHighest, hS]
    refine ⟨by simp [hTB], by simp [hTB, hSH], by simp [hTB, hSH], by simp [hTB, hSH], ?_⟩
    intro hcon
    exact absurd rfl hcon.1
  | cons p l =>
    rw [hps] at hS
    have hSH : scanHighest t = some (goHighest p l) := by rw [scanHighest, hS]
    have hmem : goHighest p l ∈ p :: l := goHighest_mem l p
    cases helev : (goHighest p l).elevation with
    | none =>
      have hTB : ToTrackBounds t = .error .missingElevation := by
        rw [ToTrackBounds, hS]
        simp [elevNotNull, helev]
      refine ⟨by simp [hTB], by simp [hTB, hSH, helev], by simp [hTB, hSH, helev],
        by simp [hTB, hSH, helev], fun _ => hTB⟩
    | some v =>
      by_cases hts : (goHighest p l).timestamp = 0
      · have hTB : ToTrackBounds t = .error .missingTimestamp := by
          rw [ToTrackBounds, hS]
          simp [elevNotNull, helev, hts]
        refine ⟨by simp [hTB], by simp [hTB, hSH, helev], by simp [hTB, hSH, helev, hts],
          by simp [hTB, hSH, helev, hts], ?_⟩
        intro hcon
        have := hcon.2 _ hmem
        rw [helev] at this
        cases this
      · have hTB : ToTrackBounds t =
            .ok ⟨(scanTrack t).Start, goHighest p l, (scanTrack t).End⟩ := by
          rw [ToTrackBounds]
          rw [show (scanTrack t).Highest = some (goHighest p l) from by rw [hS]]
          simp [elevNotNull, helev, hts]
        refine ⟨by simp [hTB], by simp [hTB, hSH, helev], by simp [hTB, hSH, helev, hts],
          ⟨fun _ => ⟨goHighest p l, hSH, by simp [helev], hts⟩, fun _ => ⟨_, hTB⟩⟩, ?_⟩
        intro hcon
        have := hcon.2 _ hmem
        rw [helev] at this
        cases this

/-- C5 witness: a track with points but no present elevation is rejected
with the missing-elevation error, via the last conjunct of the claim
theorem. -/
theorem C5_witness : ToTrackBounds exC5track = .error .missingElevation :=
  (C5_validation exC5track).2.2.2.2 ⟨by decide, by decide⟩

theorem lookupKey_filter_ne (hist : List (String × History)) (k n : String) (hkn : k ≠ n) :
    lookupKey (hist.filter (fun p => !(p.1 == k))) n = lookupKey hist n := by
  induction hist with
  | nil => rfl
  | cons a rest ih =>
    obtain ⟨a1, w⟩ := a
    by_cases ha : a1 = k
    · have hf : List.filter (fun p => !(p.1 == k)) ((a1, w) :: rest)
          = List.filter (fun p => !(p.1 == k)) rest := by
        simp [List.filter_cons, ha]
      have han : a1 ≠ n := by rw [ha]; exact hkn
      rw [hf, ih]
      show lookupKey rest n = if a1 = n then some w else lookupKey rest n
      rw [if_neg han]
    · have hf : List.filter (fun p => !(p.1 == k)) ((a1, w) :: rest)
          = (a1, w) :: List.filter (fun p => !(p.1 == k)) rest := by
        simp [List.filter_cons, ha]
      rw [hf]
      show (if a1 = n then some w else lookupKey (List.filter (fun p => !(p.1 == k)) rest) n)
        = if a1 = n then some w else lookupKey rest n
      rw [ih]

theorem lookupKey_histInsert (hist : List (String × History)) (k n : String) (v : History) :
    lookupKey (histInsert hist k v) n = if k = n then some v else lookupKey hist n := by
  by_cases h : k = n
  · show (if k = n then some v else lookupKey (hist.filter fun p => !(p.1 == k)) n) = _
    rw [if_pos h, if_pos h]
  · show (if k = n then some v else lookupKey (hist.filter fun p => !(p.1 == k)) n) = _
    rw [if_neg h, if_neg h, lookupKey_filter_ne hist k n h]

/-- C3: the skip decision of the batch loop is true if and only if a
history entry exists for the file name and either the recorded error
message is empty (a recorded success) or the retry flag is off -- so
recorded successes are always skipped and recorded failures are skipped
exactly when retries were not requested. -/
theorem C3_should_skip (hist : List (String × History)) (name : String) (retry : Bool) :
    shouldSkip hist name retry = true ↔
      ∃ h, lookupKey hist name = some h ∧ (h.Error = "" ∨ retry = false) := by
  unfold shouldSkip
  cases hl : lookupKey hist name with
  | none => simp
  | some hh => simp [Bool.or_eq_true, beq_iff_eq, Bool.not_eq_true']

theorem runFiles_lookup_mono (env : BatchEnv) (retry : Bool) (files : List FileInfo) :
    ∀ (hist : List (String × History)) (proc : List String) (n : String),
      (lookupKey hist n).isSome = true →
      (lookupKey (runFiles env retry files hist proc).history n).isSome = true := by
  induction files with
  | nil => intro hist proc n h; exact h
  | cons fi rest ih =>
    intro hist proc n h
    have hins : (lookupKey (histInsert hist fi.name
        ⟨(env.upload fi.name).getD "", env.now⟩) n).isSome = true := by
      rw [lookupKey_histInsert]
      split
      · rfl
      · exact h
    rw [runFiles]
    split_ifs with h1 h2 h3 h4
    · exact ih hist proc n h
    · exact ih hist proc n h
    · exact ih hist proc n h
    · exact ih _ _ n hins
    · exact hins

theorem runFiles_complete_lookup (env : BatchEnv) (retry : Bool) (files : List FileInfo) :
    ∀ (hist : List (String × History)) (proc : List String),
      (runFiles env retry files hist proc).abort = none →
      ∀ fi ∈ files, eligible fi = true →
        (lookupKey (runFiles env retry files hist proc).history fi.name).isSome = true := by
  induction files with
  | nil => intro hist proc _ fi hfi; cases hfi
  | cons f rest ih =>
    intro hist proc habort fi hfi helig
    rw [runFiles] at habort ⊢
    rcases List.mem_cons.mp hfi with rfl | hrest
    · obtain ⟨hnd, hext⟩ := Bool.and_eq_true_iff.mp helig
      split_ifs at habort ⊢ with h1 h2 h3 h4
      · rw [Bool.not_eq_true'] at hnd
        rw [hnd] at h1
        cases h1
      · rw [hext] at h2
        cases h2
      · have hl : (lookupKey hist fi.name).isSome = true := by
          unfold shouldSkip at h3
          cases hl2 : lookupKey hist fi.name with
          | none => rw [hl2] at h3; cases h3
          | some hh => rfl
        exact runFiles_lookup_mono env retry rest hist proc fi.name hl
      · refine runFiles_lookup_mono env retry rest _ _ fi.name ?_
        rw [lookupKey_histInsert, if_pos rfl]
        rfl
    · split_ifs at habort ⊢ with h1 h2 h3 h4
      · exact ih hist proc habort fi hrest helig
      · exact ih hist proc habort fi hrest helig
      · exact ih hist proc habort fi hrest helig
      · exact ih _ _ habort fi hrest helig

theorem runFiles_all_skipped (env : BatchEnv) (files : List FileInfo) :
    ∀ (hist : List (String × History)) (proc : List String),
      (∀ fi ∈ files, eligible fi = true → (lookupKey hist fi.name).isSome = true) →
      runFiles env false files hist proc = ⟨proc.reverse, hist, none⟩ := by
  induction files with
  | nil => intro hist proc _; rfl
  | cons f rest ih =>
    intro hist proc hall
    rw [runFiles]
    by_cases h1 : f.isDir
    · rw [if_pos h1]
      exact ih hist proc (fun fi hfi he => hall fi (List.mem_cons_of_mem _ hfi) he)
    · rw [if_neg h1]
      by_cases h2 : (lookupKey extToGPSBabelFormat (pathExt f.name)).isSome = true
      · have helig : eligible f = true := by
          unfold eligible
          rw [Bool.and_eq_true_iff]
          exact ⟨by rw [Bool.not_eq_true', Bool.eq_false_iff]; simp [h1], h2⟩
        have hsk : shouldSkip hist f.name false = true := by
          have hl := hall f (List.mem_cons_self f rest) helig
          unfold shouldSkip
          cases hl2 : lookupKey hist f.name with
          | none => rw [hl2] at hl; cases hl
          | some hh => simp
        rw [if_neg (by simp [h2]), if_pos hsk]
        exact ih hist proc (fun fi hfi he => hall fi (List.mem_cons_of_mem _ hfi) he)
      · rw [if_pos (by simp [Bool.eq_false_iff.mpr h2])]
        exact ih hist proc (fun fi hfi he => hall fi (List.mem_cons_of_mem _ hfi) he)

theorem runFiles_retry_failures (env : BatchEnv)
    (hsave : ∀ doc, env.saveOk doc = true) (files : List FileInfo) :
    ∀ (hist : List (String × History)) (proc : List String),
      (files.map FileInfo.name).Nodup →
      (∀ fi ∈ files, eligible fi = true → (lookupKey hist fi.name).isSome = true) →
      (runFiles env true files hist proc).processed
        = proc.reverse ++ (files.filter
            (fun fi => eligible fi && recordedFailure hist fi.name)).map FileInfo.name := by
  induction files with
  | nil => intro hist proc _ _; simp [runFiles]
  | cons f rest ih =>
    intro hist proc hnd hall
    have hnd0 : (∀ x ∈ rest, ¬x.name = f.name) ∧ (rest.map FileInfo.name).Nodup := by
      simpa using hnd
    have hnd1 : ∀ fi ∈ rest, fi.name ≠ f.name := hnd0.1
    have hnd2 : (rest.map FileInfo.name).Nodup := hnd0.2
    have hallrest : ∀ fi ∈ rest, eligible fi = true →
        (lookupKey hist fi.name).isSome = true :=
      fun fi hfi he => hall fi (List.mem_cons_of_mem _ hfi) he
    rw [runFiles]
    by_cases h1 : f.isDir
    · rw [if_pos h1]
      have hPf : (eligible f && recordedFailure hist f.name) = false := by
        simp [eligible, h1]
      rw [List.filter_cons, if_neg (by simp [hPf])]
      exact ih hist proc hnd2 hallrest
    · rw [if_neg h1]
      by_cases h2 : (lookupKey extToGPSBabelFormat (pathExt f.name)).isSome = true
      · have helig : eligible f = true := by
          unfold eligible
          rw [Bool.and_eq_true_iff]
          exact ⟨by rw [Bool.not_eq_true', Bool.eq_false_iff]; simp [h1], h2⟩
        rw [if_neg (by simp [h2])]
        obtain ⟨hh, hl⟩ := Option.isSome_iff_exists.mp (hall f (List.mem_cons_self f rest) helig)
        by_cases hsucc : (hh.Error == "") = true
        · have hsk : shouldSkip hist f.name true = true := by
            unfold shouldSkip
            rw [hl]
            simp [hsucc]
          rw [if_pos hsk]
          have hPf : (eligible f && recordedFailure hist f.name) = false := by
            simp [recordedFailure, hl, hsucc]
          rw [List.filter_cons, if_neg (by simp [hPf])]
          exact ih hist proc hnd2 hallrest
        · have hsk : shouldSkip hist f.name true = false := by
            unfold shouldSkip
            rw [hl]
            simpa using hsucc
          rw [if_neg (by simp [hsk]), if_pos (hsave _)]
          have hall2 : ∀ fi ∈ rest, eligible fi = true →
              (lookupKey (histInsert hist f.name
                ⟨(env.upload f.name).getD "", env.now⟩) fi.name).isSome = true := by
            intro fi hfi he
            rw [lookupKey_histInsert]
            split
            · rfl
            · exact hallrest fi hfi he
          rw [ih _ (f.name :: proc) hnd2 hall2]
          have hfiltereq : rest.filter (fun fi => eligible fi && recordedFailure
                (histInsert hist f.name ⟨(env.upload f.name).getD "", env.now⟩) fi.name)
              = rest.filter (fun fi => eligible fi && recordedFailure hist fi.name) := by
            apply List.filter_congr
            intro fi hfi
            have hne : f.name ≠ fi.name := fun hEq => (hnd1 fi hfi) hEq.symm
            rw [recordedFailure, recordedFailure, lookupKey_histInsert, if_neg hne]
          have hPf : (eligible f && recordedFailure hist f.name) = true := by
            rw [Bool.and_eq_true_iff]
            refine ⟨helig, ?_⟩
            rw [recordedFailure, hl]
            simpa using hsucc
          rw [hfiltereq, List.reverse_cons, List.filter_cons, if_pos (by simp [hPf])]
          simp [List.append_assoc]
      · rw [if_pos (by simp [Bool.eq_false_iff.mpr h2])]
        have hPf : (eligible f && recordedFailure hist f.name) = false := by
          simp [eligible, Bool.eq_false_iff.mpr h2]
        rw [List.filter_cons, if_neg (by simp [hPf])]
        exact ih hist proc hnd2 hallrest

theorem runFiles_abort_cause (env : BatchEnv) (retry : Bool) (files : List FileInfo) :
    ∀ (hist : List (String × History)) (proc : List String) (c : AbortCause),
      (runFiles env retry files hist proc).abort = some c →
      c = .saveHistoryErr ∧ ∃ doc, env.saveOk doc = false := by
  induction files with
  | nil => intro hist proc c h; simp [runFiles] at h
  | cons f rest ih =>
    intro hist proc c h
    rw [runFiles] at h
    split_ifs at h with h1 h2 h3 h4
    · exact ih _ _ c h
    · exact ih _ _ c h
    · exact ih _ _ c h
    · exact ih _ _ c h
    · have hc := Option.some.inj h
      exact ⟨hc.symm, _, Bool.eq_false_iff.mpr h4⟩

/-- C4: after a completed batch run, every eligible file has a recorded
entry, so a second run with the retry flag off processes (and uploads)
nothing, and a run with the retry flag on processes exactly the files
whose recorded entry is a failure (in directory order).  The history
document loaded by the later runs is the one the first run produced;
file names in a directory listing are distinct. -/
theorem C4_batch_idempotent (files : List FileInfo) (doc : HistDoc)
    (upload upload2 upload3 : String → Option String) (now1 now2 now3 : Int) (r1 : Bool)
    (hnodup : (files.map FileInfo.name).Nodup)
    (h1 : (runBatch ⟨some files, doc, upload, fun _ => true, now1⟩ r1).abort = none) :
    (runBatch ⟨some files,
        .present (runBatch ⟨some files, doc, upload, fun _ => true, now1⟩ r1).history,
        upload2, fun _ => true, now2⟩ false).processed = []
    ∧ (runBatch ⟨some files,
        .present (runBatch ⟨some files, doc, upload, fun _ => true, now1⟩ r1).history,
        upload3, fun _ => true, now3⟩ true).processed
      = (files.filter (fun fi => eligible fi && recordedFailure
          (runBatch ⟨some files, doc, upload, fun _ => true, now1⟩ r1).history
          fi.name)).map FileInfo.name := by
  have hrb : runBatch ⟨some files, doc, upload, fun _ => true, now1⟩ r1
      = match LoadHistory doc with
        | .error c => ⟨[], [], some c⟩
        | .ok h0 => runFiles ⟨some files, doc, upload, fun _ => true, now1⟩ r1 files h0 [] := rfl
  cases hload : LoadHistory doc with
  | error c =>
    rw [hrb, hload] at h1
    simp at h1
  | ok h0 =>
    have hrun1 : runBatch ⟨some files, doc, upload, fun _ => true, now1⟩ r1
        = runFiles ⟨some files, doc, upload, fun _ => true, now1⟩ r1 files h0 [] := by
      rw [hrb, hload]
    rw [hrun1] at h1 ⊢
    have hall : ∀ fi ∈ files, eligible fi = true →
        (lookupKey (runFiles ⟨some files, doc, upload, fun _ => true, now1⟩
          r1 files h0 []).history fi.name).isSome = true :=
      runFiles_complete_lookup _ r1 files h0 [] h1
    constructor
    · have h2run : runBatch ⟨some files,
          .present (runFiles ⟨some files, doc, upload, fun _ => true, now1⟩
            r1 files h0 []).history, upload2, fun _ => true, now2⟩ false
          = runFiles ⟨some files,
              .present (runFiles ⟨some files, doc, upload, fun _ => true, now1⟩
                r1 files h0 []).history, upload2, fun _ => true, now2⟩ false files
              (runFiles ⟨some files, doc, upload, fun _ => true, now1⟩
                r1 files h0 []).history [] := rfl
      rw [h2run, runFiles_all_skipped _ files _ [] hall]
      rfl
    · have h3run : runBatch ⟨some files,
          .present (runFiles ⟨some files, doc, upload, fun _ => true, now1⟩
            r1 files h0 []).history, upload3, fun _ => true, now3⟩ true
          = runFiles ⟨some files,
              .present (runFiles ⟨some files, doc, upload, fun _ => true, now1⟩
                r1 files h0 []).history, upload3, fun _ => true, now3⟩ true files
              (runFiles ⟨some files, doc, upload, fun _ => true, now1⟩
                r1 files h0 []).history [] := rfl
      rw [h3run, runFiles_retry_failures _ (fun _ => rfl) files _ [] hnodup hall]
      simp

/-- C4 witness: over a directory with one succeeding file (a.gdb), one
failing file (b.gpx), an unsupported file and a subdirectory, the second
run with retry off processes nothing and the retry run processes
exactly b.gpx. -/
theorem C4_witness :
    (runBatch ⟨some exC4files,
        .present (runBatch ⟨some exC4files, .absent, exC4upload,
          fun _ => true, 10⟩ false).history,
        exC4upload, fun _ => true, 11⟩ false).processed = []
    ∧ (runBatch ⟨some exC4files,
        .present (runBatch ⟨some exC4files, .absent, exC4upload,
          fun _ => true, 10⟩ false).history,
        exC4upload, fun _ => true, 12⟩ true).processed = ["b.gpx"] := by
  have h := C4_batch_idempotent exC4files .absent exC4upload exC4upload exC4upload
    10 11 12 false (by decide) (by decide)
  exact ⟨h.1, by rw [h.2]; decide⟩

/-- C7 (amended): the batch run aborts only on infrastructure failures --
directory unreadable, a history document present but unreadable or
corrupt, or (missing from the claim) a failed write of the history
document after some file was processed; catalog authentication failure
prevents the run from ever starting, in NewUploader.  An absent history
document is not an error: it yields the empty store and the per-file
loop runs. -/
theorem C7_abort_infrastructure (env : BatchEnv) (retry : Bool) :
    (∀ c, (runBatch env retry).abort = some c →
      (c = .readDirErr ∧ env.readDir = none)
      ∨ (c = .loadHistoryErr ∧ (env.histDoc = .unreadable ∨ env.histDoc = .corrupt))
      ∨ (c = .saveHistoryErr ∧ ∃ doc, env.saveOk doc = false))
    ∧ (env.histDoc = .absent →
        LoadHistory env.histDoc = .ok []
        ∧ ∀ files, env.readDir = some files →
            runBatch env retry = runFiles env retry files [] []) := by
  constructor
  · intro c hc
    rw [runBatch] at hc
    rcases hrd : env.readDir with _ | files
    · rw [hrd] at hc
      exact Or.inl ⟨(Option.some.inj hc).symm, rfl⟩
    · rw [hrd] at hc
      cases hdoc : env.histDoc with
      | absent =>
        rw [hdoc] at hc
        exact Or.inr (Or.inr (runFiles_abort_cause env retry files [] [] c hc))
      | unreadable =>
        rw [hdoc] at hc
        exact Or.inr (Or.inl ⟨(Option.some.inj hc).symm, Or.inl rfl⟩)
      | corrupt =>
        rw [hdoc] at hc
        exact Or.inr (Or.inl ⟨(Option.some.inj hc).symm, Or.inr rfl⟩)
      | present h0 =>
        rw [hdoc] at hc
        exact Or.inr (Or.inr (runFiles_abort_cause env retry files h0 [] c hc))
  · intro habs
    refine ⟨by rw [habs]; rfl, ?_⟩
    intro files hrd
    rw [runBatch, hrd, habs]
    rfl

/-- C7 counterexample: with a readable two-file directory and an ABSENT
history document (and authentication necessarily succeeded for the run
to start), the run still aborts -- after processing a.gdb, the failing
SaveHistory write stops the run and b.gdb is never processed.  None of
the three abort causes listed by the claim occurred. -/
theorem C7_counterexample :
    (runBatch exC7env false).abort = some .saveHistoryErr
    ∧ (runBatch exC7env false).processed = ["a.gdb"]
    ∧ "b.gdb" ∉ (runBatch exC7env false).processed
    ∧ eligible ⟨"b.gdb", false⟩ = true
    ∧ exC7env.readDir ≠ none
    ∧ exC7env.histDoc = .absent := by decide

/-- C7 witness: the amended theorem applied to the counterexample run
(showing the abort is a failed history write) and to a run with an
absent history document (showing it proceeds into the loop on the empty
store). -/
theorem C7_witness :
    ((AbortCause.saveHistoryErr = .readDirErr ∧ exC7env.readDir = none)
      ∨ (AbortCause.saveHistoryErr = .loadHistoryErr
          ∧ (exC7env.histDoc = .unreadable ∨ exC7env.histDoc = .corrupt))
      ∨ (AbortCause.saveHistoryErr = .saveHistoryErr ∧ ∃ doc, exC7env.saveOk doc = false))
    ∧ (LoadHistory exC7Wenv.histDoc = .ok []
        ∧ ∀ files, exC7Wenv.readDir = some files →
            runBatch exC7Wenv false = runFiles exC7Wenv false files [] []) :=
  ⟨(C7_abort_infrastructure exC7env false).1 .saveHistoryErr (by decide),
    (C7_abort_infrastructure exC7Wenv false).2 rfl⟩

/-- C2 (amended): the peak-selection step fails with the no-peaks-found
error exactly on an empty catalog answer, selects the single peak when
there is exactly one, and with several candidates sorts them by
ascending distance with Go sort.Slice -- which is NOT stable, so ties
end in an implementation-defined order -- selects the first element of
the sorted list, which is a candidate at minimal distance, and raises
the non-fatal multiple-candidates warning.  The sortedness and
permutation facts about the library sort output are hypotheses
(sort.Slice contract), checkable on any concrete input. -/
theorem C2_peak_selection (dist : Peak → Int) (peaks : List Peak)
    (hmem1 : ∀ q ∈ peaks, q ∈ sortSliceGo dist peaks)
    (hmem2 : ∀ q ∈ sortSliceGo dist peaks, q ∈ peaks)
    (hlen : (sortSliceGo dist peaks).length = peaks.length)
    (hsorted : (sortSliceGo dist peaks).Pairwise (fun p q => dist p ≤ dist q)) :
    (peaks = [] → selectPeak dist peaks = .error "no peaks found")
    ∧ (∀ p, peaks = [p] → selectPeak dist peaks = .ok (p, false))
    ∧ (1 < peaks.length →
        ∃ p, selectPeak dist peaks = .ok (p, true) ∧ p ∈ peaks
          ∧ ∀ q ∈ peaks, dist p ≤ dist q) := by
  refine ⟨?_, ?_, ?_⟩
  · intro h
    subst h
    have hnil : sortSliceGo dist ([] : List Peak) = [] := by
      have := hlen
      simpa using List.eq_nil_of_length_eq_zero (by simpa using this)
    rw [selectPeak, hnil]
  · intro p h
    subst h
    have hl1 : (sortSliceGo dist [p]).length = 1 := by rw [hlen]; rfl
    obtain ⟨a, ha⟩ := List.length_eq_one.mp hl1
    have hap : a = p := by
      have : a ∈ sortSliceGo dist [p] := by rw [ha]; exact List.mem_singleton_self a
      simpa using hmem2 a this
    rw [selectPeak, ha, hap]
    rfl
  · intro hgt
    have hlgt : 1 < (sortSliceGo dist peaks).length := by rw [hlen]; exact hgt
    cases hs : sortSliceGo dist peaks with
    | nil => rw [hs] at hlgt; simp at hlgt
    | cons p restS =>
      have hrest : 0 < restS.length := by
        rw [hs] at hlgt
        simpa using hlgt
      refine ⟨p, ?_, ?_, ?_⟩
      · rw [selectPeak, hs]
        simp [hrest]
      · exact hmem2 p (by rw [hs]; exact List.mem_cons_self p restS)
      · intro q hq
        have hqS : q ∈ sortSliceGo dist peaks := hmem1 q hq
        rw [hs] at hqS
        rw [hs] at hsorted
        rcases List.mem_cons.mp hqS with rfl | hq2
        · exact le_refl _
        · exact (List.pairwise_cons.mp hsorted).1 q hq2

/-- C2 witness: with two candidates at distances 9 and 2, the nearer one
is selected and the multiple-candidates warning is raised. -/
theorem C2_witness :
    ∃ p, selectPeak exC2dist exC2wPeaks = .ok (p, true) ∧ p ∈ exC2wPeaks
      ∧ ∀ q ∈ exC2wPeaks, exC2dist p ≤ exC2dist q :=
  (C2_peak_selection exC2dist exC2wPeaks (by decide) (by decide) (by decide)
    (by decide)).2.2 (by decide)

/-- C2 counterexample: a seven-candidate catalog answer in which peak A
(catalog position 1) and peak B (catalog position 6) sit at identical
coordinates, hence tie at the minimal distance.  A stable
ascending-distance ranking would keep A before B and select A; the Go
sort.Slice algorithm (gap-6 shell pass, then insertion sort) moves B in
front, and the code selects B -- refuting the claimed
ties-broken-by-catalog-order behaviour. -/
theorem C2_counterexample :
    selectPeak exC2dist exC2peaks = .ok (exC2pB, true)
    ∧ exC2pA ∈ exC2peaks
    ∧ exC2dist exC2pA = exC2dist exC2pB
    ∧ exC2pA ≠ exC2pB
    ∧ List.indexOf exC2pA exC2peaks < List.indexOf exC2pB exC2peaks
    ∧ (∀ q ∈ exC2peaks, exC2dist exC2pA ≤ exC2dist q) := by decide

/-- C6 (code-bug evidence): processing a supported file for which the
temp file /tmp/pb1.gpx is created and gpsbabel then fails, UploadFile
returns the wrapped conversion error with the temp file still on disk:
created = [/tmp/pb1.gpx] but removed = [], because the early return on
the ToGPX error precedes the deferred os.Remove registration. -/
theorem C6_temp_file_leak :
    UploadFile exC6env "hike.gdb"
      = .ret ⟨some "ToGPX failed gpsbabel conversion failed", ["/tmp/pb1.gpx"], []⟩ := by
  decide

theorem trackFailMsgs_cons_none (f : GPXTrack → Option String) (t : GPXTrack)
    (rest : List GPXTrack) (hft : f t = none) :
    trackFailMsgs f (t :: rest) = trackFailMsgs f rest := by
  rw [trackFailMsgs, trackFailMsgs, List.filterMap_cons, hft]
  rfl

theorem trackFailMsgs_cons_some (f : GPXTrack → Option String) (t : GPXTrack)
    (rest : List GPXTrack) (e : String) (hft : f t = some e) :
    trackFailMsgs f (t :: rest) = fmtTrackErr e t.name :: trackFailMsgs f rest := by
  rw [trackFailMsgs, trackFailMsgs, List.filterMap_cons, hft]
  rfl

theorem trackLoop_acc (f : GPXTrack → Option String) (ts : List GPXTrack) :
    ∀ a, trackLoop f ts (some a)
      = some ((trackFailMsgs f ts).foldl (fun x e => x ++ ", " ++ e) a) := by
  induction ts with
  | nil => intro a; rfl
  | cons t rest ih =>
    intro a
    cases hft : f t with
    | none =>
      rw [trackLoop, hft, trackFailMsgs_cons_none f t rest hft]
      exact ih a
    | some e =>
      rw [trackLoop, hft, trackFailMsgs_cons_some f t rest e hft]
      show trackLoop f rest (some (a ++ ", " ++ fmtTrackErr e t.name)) = _
      rw [ih (a ++ ", " ++ fmtTrackErr e t.name)]
      rfl

/-- C8: every track of a parsed file is attempted even after earlier
failures: the file error is none when all tracks succeed and otherwise
the wrapped messages of ALL failing tracks, in track order, joined with
", " into one combined message; on the successful-conversion path this
combined message is exactly what UploadFile returns; and the batch loop
records the per-file outcome and continues with the remaining files. -/
theorem C8_combined_track_errors :
    (∀ (f : GPXTrack → Option String) (ts : List GPXTrack),
      trackLoop f ts none = joinComma (trackFailMsgs f ts))
    ∧ (∀ (env : FileEnv) (fn nm : String) (g : GPXFile),
        env.tmp.handle = some nm → env.tmp.err = none → env.gpsbabelOk = true →
        env.readOk = true → env.parsed = some g →
        (lookupKey extToGPSBabelFormat (strToLower (pathExt fn))).isSome = true →
        UploadFile env fn = .ret ⟨trackLoop env.trackErr g.tracks none, [nm], [nm]⟩)
    ∧ (∀ (env : BatchEnv) (retry : Bool) (fi : FileInfo) (rest : List FileInfo)
        (hist : List (String × History)) (proc : List String),
        eligible fi = true → shouldSkip hist fi.name retry = false →
        env.saveOk (histInsert hist fi.name ⟨(env.upload fi.name).getD "", env.now⟩) = true →
        runFiles env retry (fi :: rest) hist proc
          = runFiles env retry rest
              (histInsert hist fi.name ⟨(env.upload fi.name).getD "", env.now⟩)
              (fi.name :: proc)) := by
  refine ⟨?_, ?_, ?_⟩
  · intro f ts
    induction ts with
    | nil => rfl
    | cons t rest ih =>
      cases hft : f t with
      | none =>
        rw [trackLoop, hft, trackFailMsgs_cons_none f t rest hft]
        exact ih
      | some e =>
        rw [trackLoop, hft, trackFailMsgs_cons_some f t rest e hft]
        show trackLoop f rest (some (fmtTrackErr e t.name)) = _
        rw [trackLoop_acc]
        rfl
  · intro env fn nm g h1 h2 h3 h4 h5 h6
    obtain ⟨fmt, hf⟩ := Option.isSome_iff_exists.mp h6
    have hconv : ToGPXe fn env.tmp env.gpsbabelOk = .ret ((nm, none), [nm]) := by
      rw [ToGPXe, hf, h1, h2, h3]
      rfl
    rw [UploadFile, hconv, h4, h5]
    rfl
  · intro env retry fi rest hist proc helig hskip hsave
    obtain ⟨hnd, hext⟩ := Bool.and_eq_true_iff.mp helig
    rw [Bool.not_eq_true'] at hnd
    rw [runFiles, if_neg (by simp [hnd]), if_neg (by simp [hext]),
      if_neg (by simp [hskip]), if_pos hsave]

/-- C8 witness: a three-track file whose second and third tracks fail;
the combined message is produced and returned by UploadFile, and the
batch loop records the outcome for the file and moves on. -/
theorem C8_witness :
    trackLoop exC8f exC8g.tracks none = joinComma (trackFailMsgs exC8f exC8g.tracks)
    ∧ UploadFile exC8env "h.kmz"
        = .ret ⟨trackLoop exC8f exC8g.tracks none, ["/tmp/x.gpx"], ["/tmp/x.gpx"]⟩
    ∧ runFiles exC8benv false [⟨"h.kmz", false⟩] [] []
        = runFiles exC8benv false []
            (histInsert [] "h.kmz" ⟨(exC8benv.upload "h.kmz").getD "", exC8benv.now⟩)
            ["h.kmz"] :=
  ⟨C8_combined_track_errors.1 exC8f exC8g.tracks,
    C8_combined_track_errors.2.1 exC8env "h.kmz" "/tmp/x.gpx" exC8g rfl rfl rfl rfl rfl
      (by decide),
    C8_combined_track_errors.2.2 exC8benv false ⟨"h.kmz", false⟩ [] [] []
      (by decide) (by decide) (by decide)⟩

/-- C9: ToGPX calls Name() and Close() on the TempFile handle before
checking the creation error, so for every supported input file a failed
creation (nil handle, as Go returns on error) crashes with a nil
dereference instead of reaching the documented creation-error return;
that error branch is reachable only when the call returns both a usable
handle and an error. -/
theorem C9_togpx_nil_crash (f : String) (tmp : TempFileOutcome) (ok : Bool) :
    ((lookupKey extToGPSBabelFormat (strToLower (pathExt f))).isSome = true →
      tmp.handle = none → ToGPXe f tmp ok = .crash)
    ∧ (∀ pair created, ToGPXe f tmp ok = .ret (pair, created) →
        pair.2 = some tempFailMsg → tmp.handle ≠ none ∧ tmp.err ≠ none) := by
  constructor
  · intro hfmt hnil
    obtain ⟨fmt, hf⟩ := Option.isSome_iff_exists.mp hfmt
    rw [ToGPXe, hf, hnil]
  · intro pair created hret hmsg
    rw [ToGPXe] at hret
    cases hf : lookupKey extToGPSBabelFormat (strToLower (pathExt f)) with
    | none =>
      rw [hf] at hret
      have hp := (Prod.mk.injEq _ _ _ _).mp (GoVal.ret.inj hret)
      rw [← hp.1] at hmsg
      exact absurd (Option.some.inj hmsg) (by decide)
    | some fmt =>
      rw [hf] at hret
      cases hh : tmp.handle with
      | none =>
        rw [hh] at hret
        cases hret
      | some nm =>
        rw [hh] at hret
        cases he : tmp.err with
        | some e => exact ⟨by simp, by simp⟩
        | none =>
          rw [he] at hret
          cases ok with
          | true =>
            have hp := (Prod.mk.injEq _ _ _ _).mp (GoVal.ret.inj hret)
            rw [← hp.1] at hmsg
            cases hmsg
          | false =>
            have hp := (Prod.mk.injEq _ _ _ _).mp (GoVal.ret.inj hret)
            rw [← hp.1] at hmsg
            exact absurd (Option.some.inj hmsg) (by decide)

/-- C9 witness: creation of the temp file fails in the normal Go way
(nil handle plus an error) on a supported .gdb input: the model crashes
instead of returning the documented error. -/
theorem C9_witness : ToGPXe "a.gdb" ⟨none, some "disk full"⟩ true = .crash :=
  (C9_togpx_nil_crash "a.gdb" ⟨none, some "disk full"⟩ true).1 (by decide) rfl

theorem ToTrackBounds_ok_start_end (t : GPXTrack) (b : TrackBounds)
    (h : ToTrackBounds t = .ok b) :
    b.Start = (scanTrack t).Start ∧ b.End = (scanTrack t).End := by
  rw [ToTrackBounds] at h
  split at h
  · cases h
  · split_ifs at h with h1 h2 <;>
      first
        | (cases h; exact ⟨rfl, rfl⟩)
        | exact ⟨rfl, rfl⟩
        | cases h

/-- C10: the ascent record copies the start and end elevations from the
first and last points of the track with no presence check -- only the
Highest point is validated -- so a successful UploadTrack on a track
whose first or last point carries no elevation submits the
absent-elevation default value 0 in that field instead of failing. -/
theorem C10_start_end_defaults (env : CatalogEnv) (dryRun : Bool) (t : GPXTrack)
    (p0 : GPXPoint) (l : List GPXPoint) (r : UTOk)
    (hps : trackPoints t = p0 :: l)
    (hok : UploadTrack env dryRun t = .ret (.ok r)) :
    (p0.elevation = none → r.ascent.StartElevation = 0)
    ∧ ((lastD l p0).elevation = none → r.ascent.EndElevation = 0) := by
  have hS := scanTrack_eq t
  rw [hps] at hS
  rw [UploadTrack] at hok
  split at hok
  · cases hok
  next tb htb =>
    have hse := ToTrackBounds_ok_start_end t tb htb
    have hstart : tb.Start = some p0 := by rw [hse.1, hS]
    have hend : tb.End = some (lastD l p0) := by rw [hse.2, hS]
    split at hok
    · cases hok
    next peaks hfp =>
      split at hok
      · cases hok
      next peak warn hsel =>
        split at hok
        · cases hok
        next ascents hla =>
          split_ifs at hok with hdup hdry hadd <;>
            first
              | (cases hok <;>
                  exact ⟨fun hn => by simp [elevValue, hn], fun hn => by simp [elevValue, hn]⟩)
              | (rw [hstart, hend] at hok
                 split at hok <;>
                   first
                     | (rename_i s e hs he
                        obtain rfl : p0 = s := Option.some.inj hs
                        obtain rfl : lastD l p0 = e := Option.some.inj he
                        (try cases hok) <;>
                          exact ⟨fun hn => by simp [elevValue, hn],
                            fun hn => by simp [elevValue, hn]⟩)
                     | ((try cases hok) <;>
                          exact ⟨fun hn => by simp [elevValue, hn],
                            fun hn => by simp [elevValue, hn]⟩)
                     | (rename_i hne
                        exact (hne p0 (lastD l p0) rfl rfl).elim))

/-- C10 witness: a valid track whose first and last points carry no
elevation runs UploadTrack to a successful submission whose start and
end elevations are the default 0. -/
theorem C10_witness :
    (exC10p0.elevation = none → exC10res.ascent.StartElevation = 0)
    ∧ ((lastD [exC10p1, exC10p2] exC10p0).elevation = none →
        exC10res.ascent.EndElevation = 0) :=
  C10_start_end_defaults exC10env false exC10track exC10p0 [exC10p1, exC10p2] exC10res
    (by decide) (by decide)
